import Mathlib

/-!
Verification development for the opencode-chatbot repository
(`opencode_client.py`, `opencode_runner.py`, `bot_core.py`).

Python strings are modelled as `String` (with the character-list
representation `List Char` used for the primitive operations, matching
Python's code-point semantics).  Python `dict.get` of an optional key is
modelled as `Option`.  Effectful functions (HTTP calls, process control,
`time.sleep` loops) are modelled as deterministic functions over explicit
environments: an oracle field gives the outcome of the k-th external call,
and observable side effects (spawns, signals sent, directory creations)
are collected in an explicit record.  Wall-clock deadlines are modelled by
the finite number of loop iterations the deadline admits.
-/

/-- Python exceptions relevant to the control flow of `bot_core.handle_message`
and the client: `httpx.TimeoutException`, `httpx.HTTPStatusError` (which
carries `response.status_code`), and any other `Exception` rendered by its
display string (`ValueError`, `KeyError`, ...). -/
inductive PyExc where
  | timeout (msg : String)
  | httpStatus (code : Nat) (msg : String)
  | other (msg : String)
deriving DecidableEq, Repr

/-- Display string of an exception, modelling Python's `f"{e}"`. -/
def excStr : PyExc → String
  | .timeout m => m
  | .httpStatus _ m => m
  | .other m => m

/-- Python `str.strip` whitespace set (` \t\n\r\x0b\x0c`). -/
def pyIsSpace (c : Char) : Bool :=
  c = ' ' || c = '\t' || c = '\n' || c = '\r' || c = '\x0B' || c = '\x0C'

/-- Strip leading and trailing whitespace from a character list. -/
def trimChars (l : List Char) : List Char :=
  ((l.dropWhile pyIsSpace).reverse.dropWhile pyIsSpace).reverse

/-- Python `str.strip()`. -/
def pyStrip (s : String) : String := ⟨trimChars s.data⟩

/-- Python `str.split(sep)` for a one-character separator: always returns at
least one (possibly empty) segment. -/
def splitOnChar (sep : Char) : List Char → List (List Char)
  | [] => [[]]
  | c :: cs =>
    match splitOnChar sep cs with
    | [] => [[c]]
    | h :: t => if c = sep then [] :: h :: t else (c :: h) :: t

/-- Substring test (Python `needle in haystack`) on character lists. -/
def isInfixChars (needle : List Char) : List Char → Bool
  | [] => needle.isEmpty
  | c :: cs => needle.isPrefixOf (c :: cs) || isInfixChars needle cs

/-- Digit-string value: `some n` iff the list is nonempty and all decimal
digits. -/
def parseDigits : List Char → Option Nat
  | [] => none
  | l => l.foldl (fun acc c => match acc with
      | none => none
      | some n => if c.isDigit then some (n * 10 + (c.toNat - 48)) else none)
      (some 0)

/-- Python `int(str)`: optional surrounding whitespace, optional sign, then
decimal digits; anything else raises `ValueError` (modelled as `none`).
Digit-grouping underscores are not modelled. -/
def pyIntChars (l : List Char) : Option Int :=
  match trimChars l with
  | '+' :: rest => (parseDigits rest).map Int.ofNat
  | '-' :: rest => (parseDigits rest).map (fun n => -(n : Int))
  | rest => (parseDigits rest).map Int.ofNat

/-- One entry of a message's `parts` list.  `ptype` models `p.get("type")`,
`text = some s` models the key `"text"` being present with value `s`. -/
structure MsgPart where
  ptype : Option String
  text : Option String
deriving DecidableEq, Repr

/-- A backend message object; `parts` models `data.get("parts") or []`. -/
structure Message where
  parts : List MsgPart
deriving DecidableEq, Repr

/-- From `opencode_client._extract_final_result`: collect the `text` values of
the parts whose type is `"text"` and that carry a `"text"` key, and return the
stripped last one; empty string when there is none. -/
def extract_final_result (m : Message) : String :=
  let textParts := m.parts.filterMap (fun p => if p.ptype = some "text" then p.text else none)
  match textParts.getLast? with
  | none => ""
  | some t => pyStrip t

/-- Error message of `opencode_client._parse_json` for an empty body. -/
def emptyBodyMsg (status : Nat) (baseUrl : String) : String :=
  "OpenCode 返回空内容 (HTTP " ++ toString status ++ ")，请确认服务已启动且地址正确: " ++ baseUrl

/-- Content preview used by `_parse_json`: `text[:200].replace("\n", " ")`. -/
def previewOf (text : String) : String :=
  ⟨(text.data.take 200).map (fun c => if c = '\n' then ' ' else c)⟩

/-- Error message of `_parse_json` for a non-JSON body. -/
def nonJsonMsg (status : Nat) (preview : String) (err : String) : String :=
  "OpenCode 返回非 JSON (HTTP " ++ toString status ++ ")，内容预览: " ++ preview ++ "。错误: " ++ err

/-- From `opencode_client._parse_json`.  The JSON decoder (`json.loads`) is a
parameter; `r.text`, `r.status_code` and the configured base URL are passed
explicitly.  Raising `ValueError` is modelled as returning `.error`. -/
def _parse_json {J : Type} (decode : String → Except String J) (status : Nat)
    (baseUrl : String) (body : String) : Except PyExc J :=
  let text := pyStrip body
  if text = "" then .error (.other (emptyBodyMsg status baseUrl))
  else
    match decode text with
    | .ok v => .ok v
    | .error e => .error (.other (nonJsonMsg status (previewOf text) e))

/-- From `bot_core.chunk_text` (character-list model of the string).  The
Python loop `for i in range(0, len(text), size)` appending `text[i:i+size]` is
transcribed literally; `range` with step `size ≥ 1` has
`(len + size - 1) / size` elements. -/
def chunk_text (text : List Char) (size : Nat) : List (List Char) :=
  if text.length ≤ size then (if text.isEmpty then [] else [text])
  else (List.range ((text.length + size - 1) / size)).map
    (fun k => (text.drop (k * size)).take size)

/-- The scheme-stripped remainder used by
`opencode_runner._parse_port_from_base_url`. -/
def urlRest (url : String) : List Char :=
  if "http://".data.isPrefixOf url.data then url.data.drop 7
  else if "https://".data.isPrefixOf url.data then url.data.drop 8
  else url.data

/-- `rest.split("/")[0]` from `_parse_port_from_base_url`. -/
def hostPortOf (url : String) : List Char :=
  (splitOnChar '/' (urlRest url)).headD []

/-- `host_port.split(":")[-1]` from `_parse_port_from_base_url`. -/
def lastColonSeg (url : String) : List Char :=
  (splitOnChar ':' (hostPortOf url)).getLastD []

/-- From `opencode_runner._parse_port_from_base_url`: strip the scheme, take
the segment before the first `/`, and parse the text after the last `:` as the
port; with no colon return `80 if "https" in url else 80` (both branches 80);
any failure (`int` raising) falls back to `DEFAULT_PORT = 4096`. -/
def _parse_port_from_base_url (url : String) : Int :=
  if (hostPortOf url).contains ':' then
    match pyIntChars (lastColonSeg url) with
    | some n => n
    | none => 4096
  else if isInfixChars "https".data url.data then 80 else 80

/-- The shared port-resolution prologue of `start_opencode`,
`restart_opencode` and `ensure_opencode_running`:
`port = port or _parse_port_from_base_url(get_base_url())` followed by
`if port == 80: port = DEFAULT_PORT` (a passed `0` is falsy in Python). -/
def resolvedPort (portArg : Option Int) (baseUrl : String) : Int :=
  let p : Int :=
    match portArg with
    | none => _parse_port_from_base_url baseUrl
    | some q => if q = 0 then _parse_port_from_base_url baseUrl else q
  if p = 80 then 4096 else p

/-- Result of one `check_port` call: occupancy, owner pid and command
preview (`opencode_runner.check_port`). -/
structure PortObs where
  inUse : Bool
  pid : Option Nat
  cmd : Option String
deriving DecidableEq, Repr

/-- Outcome of one `os.kill(pid, sig)` call: normal return,
`ProcessLookupError`, or any other exception. -/
inductive KillRes where
  | ok
  | noSuchProcess
  | failure (msg : String)
deriving DecidableEq, Repr

/-- Outcome of `subprocess.Popen`: a pid, `FileNotFoundError`, or any other
exception rendered by its display string. -/
inductive SpawnRes where
  | ok (pid : Nat)
  | notFound
  | err (msg : String)
deriving DecidableEq, Repr

/-- Environment for one call into `opencode_runner`: `health k` is the result
of the k-th `is_opencode_healthy()` probe made by that call, `port k` the
result of its k-th `check_port` call, `mkdirErr` the outcome of
`os.makedirs` (`none` = success), `spawn` the outcome of `Popen`, and
`kill pid sig` the outcome of `os.kill`. -/
structure SupEnv where
  health : Nat → Bool
  port : Nat → PortObs
  mkdirErr : Option String
  spawn : SpawnRes
  kill : Nat → Nat → KillRes

/-- Observable side effects of a supervisor call. -/
structure Effects where
  mkdirCalls : Nat
  spawns : Nat
  sigterms : List Nat
  sigkills : List Nat
deriving DecidableEq, Repr

/-- No side effects. -/
def noEffects : Effects := ⟨0, 0, [], []⟩

/-- Concatenation of effect records, in execution order. -/
def Effects.comb (a b : Effects) : Effects :=
  ⟨a.mkdirCalls + b.mkdirCalls, a.spawns + b.spawns,
   a.sigterms ++ b.sigterms, a.sigkills ++ b.sigkills⟩

/-- Result of a public supervisor operation: the `(success, message)` pair the
Python function returns, plus the collected side effects. -/
structure SupResult where
  ok : Bool
  msg : String
  eff : Effects
deriving DecidableEq, Repr

/-- Python `f"{pid}"` for an optional pid. -/
def pyShowOptNat : Option Nat → String
  | none => "None"
  | some n => toString n

/-- Python `s or default` for an optional/possibly-empty string. -/
def pyOrStr (o : Option String) (d : String) : String :=
  match o with
  | none => d
  | some s => if s = "" then d else s

/-- From `opencode_runner.start_opencode`: resolve the port, create the
working directory (`exist_ok=True`, so an existing directory is success),
spawn `opencode serve` detached, and report.  `workDir` stands for the
already-expanded working directory, `hostname` for the optional hostname
argument (`or DEFAULT_HOST`). -/
def start_opencode (env : SupEnv) (portArg : Option Int) (baseUrl : String)
    (hostname : Option String) (workDir : String) : SupResult :=
  let port := resolvedPort portArg baseUrl
  let host := pyOrStr hostname "127.0.0.1"
  match env.mkdirErr with
  | some e => ⟨false, "无法创建目录 " ++ workDir ++ ": " ++ e, ⟨1, 0, [], []⟩⟩
  | none =>
    match env.spawn with
    | .notFound => ⟨false, "未找到 opencode 命令，请确认已安装并在 PATH 中", ⟨1, 0, [], []⟩⟩
    | .err m => ⟨false, m, ⟨1, 0, [], []⟩⟩
    | .ok pid =>
      ⟨true, "已启动 opencode serve (pid=" ++ toString pid ++ ", " ++ host ++ ":"
        ++ toString port ++ ", cwd=" ++ workDir ++ ")", ⟨1, 1, [], []⟩⟩

/-- From `opencode_runner._kill_port_process`: probe the port (call 0); when
unoccupied or the pid is falsy (`None` or `0`) succeed with no signal; else
send SIGTERM (15), poll `check_port` up to 10 times (calls 1..10) for the port
to free, escalate to SIGKILL (9) if still occupied.  `ProcessLookupError`
from `os.kill` is success; any other `os.kill` exception is failure. -/
def _kill_port_process (env : SupEnv) : Bool × Effects :=
  if (env.port 0).inUse = false then (true, noEffects)
  else
    match (env.port 0).pid with
    | none => (true, noEffects)
    | some 0 => (true, noEffects)
    | some pid =>
      match env.kill pid 15 with
      | .noSuchProcess => (true, ⟨0, 0, [pid], []⟩)
      | .failure _ => (false, ⟨0, 0, [pid], []⟩)
      | .ok =>
        if (List.range 10).any (fun k => (env.port (k + 1)).inUse = false) then
          (true, ⟨0, 0, [pid], []⟩)
        else
          match env.kill pid 9 with
          | .noSuchProcess => (true, ⟨0, 0, [pid], [pid]⟩)
          | .failure _ => (false, ⟨0, 0, [pid], [pid]⟩)
          | .ok => (true, ⟨0, 0, [pid], [pid]⟩)

/-- From `opencode_runner.restart_opencode`: resolve the port, terminate the
current owner via `_kill_port_process` (aborting when that reports failure),
start `opencode serve`, then poll `is_opencode_healthy` up to 15 times
(health calls 0..14).  The Python locals `port`, the kill result and the
start result are pure values of the environment, so their single binding is
written here as repeated application. -/
def restart_opencode (env : SupEnv) (portArg : Option Int) (baseUrl : String)
    (workDir : String) : SupResult :=
  if (_kill_port_process env).1 = false then
    ⟨false, "无法终止端口 " ++ toString (resolvedPort portArg baseUrl) ++ " 上的进程",
     (_kill_port_process env).2⟩
  else
    if (start_opencode env (some (resolvedPort portArg baseUrl)) baseUrl none workDir).ok
        = false then
      ⟨false, (start_opencode env (some (resolvedPort portArg baseUrl)) baseUrl none workDir).msg,
       (_kill_port_process env).2.comb
         (start_opencode env (some (resolvedPort portArg baseUrl)) baseUrl none workDir).eff⟩
    else if (List.range 15).any (fun j => env.health j) then
      ⟨true, "已重启 OpenCode: "
         ++ (start_opencode env (some (resolvedPort portArg baseUrl)) baseUrl none workDir).msg,
       (_kill_port_process env).2.comb
         (start_opencode env (some (resolvedPort portArg baseUrl)) baseUrl none workDir).eff⟩
    else
      ⟨false, "已启动但健康检查未通过: "
         ++ (start_opencode env (some (resolvedPort portArg baseUrl)) baseUrl none workDir).msg,
       (_kill_port_process env).2.comb
         (start_opencode env (some (resolvedPort portArg baseUrl)) baseUrl none workDir).eff⟩

/-- From `opencode_runner.ensure_opencode_running`: health probe (call 0) —
healthy is a no-op success; else resolve the port and probe it (port call 0);
occupied and still unhealthy (health call 1) is a failure naming the occupier;
occupied and now healthy is success; unoccupied leads to `start_opencode`
followed by up to 10 health polls (health calls 1..10, since the short-circuit
`in_use and not is_opencode_healthy()` skips its probe when unoccupied). -/
def ensure_opencode_running (env : SupEnv) (portArg : Option Int)
    (baseUrl : String) (workDir : String) : SupResult :=
  if env.health 0 then ⟨true, "OpenCode 已在运行", noEffects⟩
  else
    let port := resolvedPort portArg baseUrl
    let obs := env.port 0
    if obs.inUse && !(env.health 1) then
      ⟨false, "端口 " ++ toString port ++ " 已被占用 (pid=" ++ pyShowOptNat obs.pid
        ++ ", " ++ pyOrStr obs.cmd "?" ++ ")，但非 OpenCode", noEffects⟩
    else if obs.inUse then ⟨true, "OpenCode 已在运行", noEffects⟩
    else
      let s := start_opencode env portArg baseUrl none workDir
      if s.ok = false then ⟨false, s.msg, s.eff⟩
      else if (List.range 10).any (fun k => env.health (1 + k)) then ⟨true, s.msg, s.eff⟩
      else ⟨false, "已启动但健康检查未通过，请稍后重试", s.eff⟩

/-- Environment for one `send_message_async_poll` call: the outcome of the
`prompt_async` POST, the message list observed just after submission, and the
successive message-list observations of the 3-second poll loop — the list
holds exactly the observations the `OPENCODE_MESSAGE_TIMEOUT` deadline
admits, so an exhausted list models the deadline elapsing. -/
structure AsyncEnv where
  submit : Except PyExc Unit
  initial : List Message
  polls : List (List Message)

/-- The poll loop of `opencode_client.send_message_async_poll`: on each
observation, when the message count exceeds the recorded count, extract the
final result from the newest message and return it when non-empty, else keep
polling; an exhausted deadline raises `httpx.TimeoutException`. -/
def pollForResult (nBefore : Nat) : List (List Message) → Except PyExc String
  | [] => .error (.timeout "轮询等待结果超时")
  | ms :: rest =>
    if nBefore < ms.length then
      let r := extract_final_result (ms.getLastD ⟨[]⟩)
      if r = "" then pollForResult nBefore rest else .ok r
    else pollForResult nBefore rest

/-- From `opencode_client.send_message_async_poll`: POST to
`/session/:id/prompt_async` (propagating its failure), record
`len(_get_messages(...))`, then poll. -/
def send_message_async_poll (env : AsyncEnv) : Except PyExc String :=
  match env.submit with
  | .error e => .error e
  | .ok _ => pollForResult env.initial.length env.polls

/-- A backend session object: `sid`, `title`, `time` model
`s.get("id")`, `s.get("title")`, `s.get("time")`. -/
structure SessionObj where
  sid : Option String
  title : Option String
  time : Option String
deriving DecidableEq, Repr

/-- A placeholder session object (used only as the `headD` default on lists
proven nonempty). -/
def dummySession : SessionObj := ⟨none, none, none⟩

/-- The id list `[s.get("id") for s in (sessions or []) if s.get("id")]`
computed by `bot_core.get_or_create_session` (truthiness keeps present,
non-empty ids). -/
def truthyIds (ss : List SessionObj) : List String :=
  ss.filterMap (fun s =>
    match s.sid with
    | none => none
    | some i => if i = "" then none else some i)

/-- Environment for one `get_or_create_session` call: the outcome of the
verification `list_sessions` call, of the fallback `list_sessions` call, and
of `create_session`. -/
structure SessEnv where
  list1 : Except PyExc (List SessionObj)
  list2 : Except PyExc (List SessionObj)
  create : Except PyExc SessionObj

/-- The fallback half of `bot_core.get_or_create_session` (lines after the
verification block): list sessions — an empty list leads to `create_session`
and caching its `["id"]` (a missing key raises `KeyError`), a nonempty list
caches `sessions[0]["id]`.  Returns the Python result paired with the new
value of the global `current_session_id`; on a raise the pointer keeps the
value `cur` it had when the raise happened. -/
def sessionFallback (env : SessEnv) (cur : Option String) :
    Except PyExc String × Option String :=
  match env.list2 with
  | .error e => (.error e, cur)
  | .ok [] =>
    match env.create with
    | .error e => (.error e, cur)
    | .ok s =>
      match s.sid with
      | none => (.error (.other "KeyError: 'id'"), cur)
      | some i => (.ok i, some i)
  | .ok (s0 :: _) =>
    match s0.sid with
    | none => (.error (.other "KeyError: 'id'"), cur)
    | some i => (.ok i, some i)

/-- From `bot_core.get_or_create_session`: with a truthy cached id, verify it
against the backend's session list; reuse it on success, and on failure
(absent id, or the listing raising — swallowed by `except: pass`) reset the
pointer to `None` and fall through to the fallback. -/
def get_or_create_session (cur : Option String) (env : SessEnv) :
    Except PyExc String × Option String :=
  match cur with
  | none => sessionFallback env none
  | some c =>
    if c = "" then sessionFallback env (some c)
    else
      match env.list1 with
      | .ok ss => if c ∈ truthyIds ss then (.ok c, some c) else sessionFallback env none
      | .error _ => sessionFallback env none

/-- From `bot_core.switch_session`: set the current session pointer to the
given id, unconditionally. -/
def switch_session (sessionId : String) : Option String := some sessionId

/-- Reply strings of `bot_core.handle_message`. -/
def noTextReply : String := "(无文本结果)"

/-- The timeout guidance reply of `bot_core.handle_message`. -/
def timeoutReply : String :=
  "请求超时（OpenCode 可能仍在执行），可稍后重试或发 /session 查看。可设置环境变量 OPENCODE_MESSAGE_TIMEOUT（秒）增大超时。"

/-- The generic failure reply `f"调用 OpenCode 失败: {e}"`. -/
def failReply (e : PyExc) : String := "调用 OpenCode 失败: " ++ excStr e

/-- Environment for one `handle_message` call: outcome of the first
`get_or_create_session`, of the first `send_message`, and — on the 404 retry
path — of the fresh `get_or_create_session` and the retried `send_message`. -/
structure MsgEnv where
  sess1 : Except PyExc String
  send1 : Except PyExc String
  sess2 : Except PyExc String
  send2 : Except PyExc String

/-- Caller-visible outcome of `handle_message`: the reply string, the number
of `send_message` attempts made, and whether the cached session id was
cleared (`current_session_id = None` on the 404 path). -/
structure HandleOut where
  reply : String
  sendCalls : Nat
  cacheCleared : Bool
deriving DecidableEq, Repr

/-- The 404 retry block of `bot_core.handle_message`: obtain a fresh session
and retry the send once; any exception there is reported as a generic
failure. -/
def handleRetry (env : MsgEnv) : HandleOut :=
  match env.sess2 with
  | .error e => ⟨failReply e, 0, true⟩
  | .ok _ =>
    match env.send2 with
    | .error e => ⟨failReply e, 1, true⟩
    | .ok r => ⟨if r = "" then noTextReply else r, 1, true⟩

/-- Exception dispatch of `bot_core.handle_message`'s `try` block:
`httpx.TimeoutException` gives the guidance reply with no retry; an
`httpx.HTTPStatusError` with status 404 clears the cache and runs the retry
block; every other failure is reported once.  `s1` is the number of send
attempts already made. -/
def handleFirstErr (env : MsgEnv) (e : PyExc) (s1 : Nat) : HandleOut :=
  match e with
  | .timeout _ => ⟨timeoutReply, s1, false⟩
  | .httpStatus c m =>
    if c = 404 then
      let r := handleRetry env
      ⟨r.reply, s1 + r.sendCalls, true⟩
    else ⟨failReply (.httpStatus c m), s1, false⟩
  | .other m => ⟨failReply (.other m), s1, false⟩

/-- From `bot_core.handle_message`: obtain a session, attempt delivery, and
render an empty result as `"(无文本结果)"`; exceptions are dispatched by
`handleFirstErr`. -/
def handle_message (env : MsgEnv) : HandleOut :=
  match env.sess1 with
  | .error e => handleFirstErr env e 0
  | .ok _ =>
    match env.send1 with
    | .ok r => ⟨if r = "" then noTextReply else r, 1, false⟩
    | .error e => handleFirstErr env e 1

/-- The sort key of `bot_core.handle_restart_opencode`:
`t = s.get("time") or ""; (1 if t else 0, t)`. -/
def restartKey (s : SessionObj) : Nat × String :=
  let t := pyOrStr s.time ""
  (if t = "" then 0 else 1, t)

/-- Lexicographic `≤` on the sort keys, as Python compares tuples. -/
def keyLe (a b : Nat × String) : Bool :=
  decide (a.1 < b.1) || (decide (a.1 = b.1) && decide (a.2 ≤ b.2))

/-- Stable descending insertion by `restartKey`: a new element goes before
the first element whose key is `≤` its own, so equal-key elements keep their
original relative order — the semantics of Python's stable
`sorted(key=sort_key, reverse=True)`. -/
def insortDesc (a : SessionObj) : List SessionObj → List SessionObj
  | [] => [a]
  | b :: bs => if keyLe (restartKey b) (restartKey a) then a :: b :: bs else b :: insortDesc a bs

/-- Stable descending sort by `restartKey`, modelling
`sorted(sessions, key=sort_key, reverse=True)`. -/
def sortByKeyDesc : List SessionObj → List SessionObj
  | [] => []
  | a :: as => insortDesc a (sortByKeyDesc as)

/-- The session-selection epilogue of `bot_core.handle_restart_opencode`
(after a successful restart, `current_session_id = None`, then): re-query the
session list, and when it is nonempty set the pointer to
`sorted(sessions, key=sort_key, reverse=True)[0].get("id")`; a listing error
is swallowed, leaving the pointer `None`. -/
def handle_restart_select (listRes : Except PyExc (List SessionObj)) : Option String :=
  match listRes with
  | .error _ => none
  | .ok [] => none
  | .ok (s :: ss) => ((sortByKeyDesc (s :: ss)).headD dummySession).sid

/-- A concrete async-poll environment whose message count never changes:
successful submission, two messages initially, and every admitted poll
observing the same two messages. -/
def staleAsyncEnv : AsyncEnv :=
  ⟨.ok (), [⟨[]⟩, ⟨[]⟩], [[⟨[]⟩, ⟨[]⟩], [⟨[]⟩, ⟨[]⟩], [⟨[]⟩, ⟨[]⟩]]⟩

/-- A concrete supervisor environment where the port owner exists but
`os.kill` raises `PermissionError`. -/
def permDeniedEnv : SupEnv :=
  ⟨fun _ => true, fun _ => ⟨true, some 7, some "other-server"⟩, none, .ok 41,
   fun _ _ => .failure "PermissionError"⟩

/-- A concrete supervisor environment for a full graceful-escalation restart:
the port stays occupied by pid 7 through every probe, both signals are
delivered, and the respawned backend is immediately healthy. -/
def escalateEnv : SupEnv :=
  ⟨fun _ => true, fun _ => ⟨true, some 7, none⟩, none, .ok 41, fun _ _ => .ok⟩

/-- A concrete supervisor environment that is healthy from the start. -/
def healthyEnv : SupEnv :=
  ⟨fun _ => true, fun _ => ⟨false, none, none⟩, none, .ok 41, fun _ _ => .ok⟩

/-- A concrete `handle_message` environment: first send fails with 404, the
retry gets a fresh session and succeeds. -/
def retry404Env : MsgEnv :=
  ⟨.ok "s1", .error (.httpStatus 404 "Not Found"), .ok "s2", .ok "done"⟩

/-- A concrete session environment: the cached id is listed by the backend. -/
def verifyEnv : SessEnv :=
  ⟨.ok [⟨some "abc", some "t", none⟩], .ok [], .error (.other "unused")⟩

/-- A concrete session list for the restart-selection witness: one session
without a timestamp, one with. -/
def twoSessions : List SessionObj :=
  [⟨some "a", none, none⟩, ⟨some "b", none, some "2024-01-01"⟩]

/-- Ceiling-division bound: `a ≤ ⌈a / b⌉ * b` written with
`⌈a / b⌉ = (a + b - 1) / b`. -/
theorem le_ceil_mul (a b : Nat) (hb : 0 < b) : a ≤ (a + b - 1) / b * b := by
  by_contra hcon
  push_neg at hcon
  have key : ((a + b - 1) / b + 1) * b ≤ a + b - 1 := by
    have hq : (a + b - 1) / b * b + b ≤ a + b - 1 := by
      generalize (a + b - 1) / b * b = X at hcon ⊢
      omega
    rw [Nat.succ_mul]
    exact hq
  have h2 := (Nat.le_div_iff_mul_le hb).2 key
  exact Nat.not_succ_le_self _ h2

/-- Concatenating `n` successive `size`-wide slices of `l` recovers `l` when
`n * size` covers its length. -/
theorem join_chunks (size : Nat) :
    ∀ (n : Nat) (l : List Char), l.length ≤ n * size →
      ((List.range n).map (fun k => (l.drop (k * size)).take size)).flatten = l := by
  intro n
  induction n with
  | zero =>
    intro l hl
    simp only [Nat.zero_mul, Nat.le_zero, List.length_eq_zero] at hl
    simp [hl]
  | succ n ih =>
    intro l hl
    rw [List.range_succ_eq_map, List.map_cons, List.map_map, List.flatten_cons]
    have hmap : (List.range n).map ((fun k => (l.drop (k * size)).take size) ∘ Nat.succ)
        = (List.range n).map (fun k => ((l.drop size).drop (k * size)).take size) := by
      apply List.map_congr_left
      intro k _
      simp only [Function.comp]
      rw [List.drop_drop, Nat.succ_mul, Nat.add_comm]
    rw [hmap, ih (l.drop size) ?_]
    · simp only [Nat.zero_mul, List.drop_zero]
      exact List.take_append_drop size l
    · rw [List.length_drop]
      rw [Nat.add_mul, Nat.one_mul] at hl
      generalize n * size = M at hl ⊢
      omega

/-- C9: for every text and positive size, the chunks returned by
`chunk_text` concatenate back to the text in order, each chunk has length at
most `size`, and the empty text yields the empty chunk list. -/
theorem spec_C9 (text : List Char) (size : Nat) (hs : 0 < size) :
    (chunk_text text size).flatten = text
    ∧ (∀ c ∈ chunk_text text size, c.length ≤ size)
    ∧ chunk_text [] size = [] := by
  refine ⟨?_, ?_, by simp [chunk_text]⟩
  · unfold chunk_text
    split
    · split
      · next h => simp [List.isEmpty_iff.mp h]
      · simp
    · exact join_chunks size _ text (le_ceil_mul text.length size hs)
  · intro c hc
    unfold chunk_text at hc
    split at hc
    · next hlen =>
      split at hc
      · simp at hc
      · simp only [List.mem_singleton] at hc
        exact hc ▸ hlen
    · simp only [List.mem_map] at hc
      obtain ⟨k, -, rfl⟩ := hc
      exact List.length_take_le size _

/-- Witness for C9 at `text = "abcdefg"`, `size = 3`. -/
theorem spec_C9_witness :
    (chunk_text "abcdefg".data 3).flatten = "abcdefg".data
    ∧ (∀ c ∈ chunk_text "abcdefg".data 3, c.length ≤ 3)
    ∧ chunk_text [] 3 = [] :=
  spec_C9 "abcdefg".data 3 (by decide)

/-- C10: `_parse_port_from_base_url` is total with fallback 4096 — a
colon-free host-port segment yields 80 regardless of scheme, a colon with an
unparsable port segment yields 4096, a parsable segment yields its value —
and the supervisor entry points' shared port resolution (`resolvedPort`,
used by `ensure_opencode_running`, `start_opencode` and `restart_opencode`)
replaces a parsed 80 by the default 4096. -/
theorem spec_C10 (url : String) :
    ((hostPortOf url).contains ':' = false → _parse_port_from_base_url url = 80)
    ∧ (∀ n : Int, (hostPortOf url).contains ':' = true →
        pyIntChars (lastColonSeg url) = some n → _parse_port_from_base_url url = n)
    ∧ ((hostPortOf url).contains ':' = true → pyIntChars (lastColonSeg url) = none →
        _parse_port_from_base_url url = 4096)
    ∧ (_parse_port_from_base_url url = 80 → resolvedPort none url = 4096) := by
  refine ⟨?_, ?_, ?_, ?_⟩
  · intro h
    unfold _parse_port_from_base_url
    rw [h]
    simp
  · intro n hc hp
    unfold _parse_port_from_base_url
    rw [hc, hp]
    simp
  · intro hc hp
    unfold _parse_port_from_base_url
    rw [hc, hp]
    simp
  · intro h
    simp [resolvedPort, h]

/-- Witness for C10 at the https URL `"https://example.com/x"` (no port in
the URL): the parse returns 80 and the supervisor resolution turns it into
4096. -/
theorem spec_C10_witness :
    _parse_port_from_base_url "https://example.com/x" = 80
    ∧ resolvedPort none "https://example.com/x" = 4096 :=
  ⟨(spec_C10 "https://example.com/x").1 (by decide),
   (spec_C10 "https://example.com/x").2.2.2 ((spec_C10 "https://example.com/x").1 (by decide))⟩

/-- C6: `extract_final_result` on the example parts list returns `"b"`; with
no text-typed part carrying text it returns the empty string; in general it
returns the stripped text of the last text-typed, text-carrying part; and
`handle_message` renders an empty delivery result as the designated
no-textual-result string. -/
theorem spec_C6 :
    extract_final_result
      ⟨[⟨some "tool", none⟩, ⟨some "text", some "a"⟩, ⟨some "text", some " b "⟩]⟩ = "b"
    ∧ (∀ m : Message, (∀ p ∈ m.parts, ¬(p.ptype = some "text" ∧ p.text ≠ none)) →
        extract_final_result m = "")
    ∧ (∀ (l₁ l₂ : List MsgPart) (p : MsgPart) (s : String),
        p.ptype = some "text" → p.text = some s →
        (∀ q ∈ l₂, ¬(q.ptype = some "text" ∧ q.text ≠ none)) →
        extract_final_result ⟨l₁ ++ p :: l₂⟩ = pyStrip s)
    ∧ (∀ (env : MsgEnv) (sid : String), env.sess1 = .ok sid → env.send1 = .ok "" →
        (handle_message env).reply = noTextReply) := by
  have hnil : ∀ (l : List MsgPart), (∀ q ∈ l, ¬(q.ptype = some "text" ∧ q.text ≠ none)) →
      l.filterMap (fun p => if p.ptype = some "text" then p.text else none) = [] := by
    intro l hl
    rw [List.filterMap_eq_nil_iff]
    intro p hp
    by_cases hp1 : p.ptype = some "text"
    · have := hl p hp
      simp only [hp1, ne_eq, true_and, not_not] at this
      simp [hp1, this]
    · simp [hp1]
  refine ⟨by decide, ?_, ?_, ?_⟩
  · intro m hm
    unfold extract_final_result
    rw [hnil m.parts hm]
    rfl
  · intro l₁ l₂ p s hp ht hl₂
    unfold extract_final_result
    rw [List.filterMap_append]
    have hcons : (p :: l₂).filterMap (fun q => if q.ptype = some "text" then q.text else none)
        = [s] := by
      simp [hp, ht, hnil l₂ hl₂]
    rw [hcons]
    simp [List.getLast?_concat]
  · intro env sid h1 h2
    simp [handle_message, h1, h2]

/-- Witness for C6: instantiates the last-text-part characterization at a
concrete parts list. -/
theorem spec_C6_witness :
    extract_final_result ⟨[⟨some "x", some "u"⟩] ++ (⟨some "text", some " c "⟩ : MsgPart)
      :: [⟨some "tool", none⟩]⟩ = pyStrip " c " :=
  spec_C6.2.2.1 [⟨some "x", some "u"⟩] [⟨some "tool", none⟩]
    ⟨some "text", some " c "⟩ " c " rfl rfl (by decide)

/-- C8: `_parse_json` turns an empty (after stripping) body into a domain
error naming the backend address and status, and a body the JSON decoder
rejects into a domain error carrying the status, the truncated newline-free
preview, and the parse error; neither case yields an `.ok` value. -/
theorem spec_C8 {J : Type} (decode : String → Except String J) (status : Nat)
    (baseUrl : String) (body : String) :
    (pyStrip body = "" →
      _parse_json decode status baseUrl body = .error (.other (emptyBodyMsg status baseUrl))
      ∧ (∃ a b : String, emptyBodyMsg status baseUrl = a ++ (baseUrl ++ b))
      ∧ (∃ c d : String, emptyBodyMsg status baseUrl = c ++ (toString status ++ d)))
    ∧ (∀ e : String, pyStrip body ≠ "" → decode (pyStrip body) = .error e →
      _parse_json decode status baseUrl body
        = .error (.other (nonJsonMsg status (previewOf (pyStrip body)) e))
      ∧ (∃ a b : String, nonJsonMsg status (previewOf (pyStrip body)) e
          = a ++ (previewOf (pyStrip body) ++ b))
      ∧ (∃ c d : String, nonJsonMsg status (previewOf (pyStrip body)) e
          = c ++ (toString status ++ d))
      ∧ (∃ f g : String, nonJsonMsg status (previewOf (pyStrip body)) e = f ++ (e ++ g)))
    ∧ ((pyStrip body = "" ∨ ∃ e, decode (pyStrip body) = .error e) →
      ∀ v : J, _parse_json decode status baseUrl body ≠ .ok v) := by
  refine ⟨?_, ?_, ?_⟩
  · intro h
    refine ⟨by simp [_parse_json, h], ?_, ?_⟩
    · exact ⟨"OpenCode 返回空内容 (HTTP " ++ toString status ++ ")，请确认服务已启动且地址正确: ",
        "", by simp [emptyBodyMsg, String.append_assoc]⟩
    · exact ⟨"OpenCode 返回空内容 (HTTP ",
        ")，请确认服务已启动且地址正确: " ++ baseUrl, by simp [emptyBodyMsg, String.append_assoc]⟩
  · intro e hne hdec
    refine ⟨by simp [_parse_json, hne, hdec], ?_, ?_, ?_⟩
    · exact ⟨"OpenCode 返回非 JSON (HTTP " ++ toString status ++ ")，内容预览: ",
        "。错误: " ++ e, by simp [nonJsonMsg, String.append_assoc]⟩
    · exact ⟨"OpenCode 返回非 JSON (HTTP ",
        ")，内容预览: " ++ previewOf (pyStrip body) ++ "。错误: " ++ e,
        by simp [nonJsonMsg, String.append_assoc]⟩
    · exact ⟨"OpenCode 返回非 JSON (HTTP " ++ toString status ++ ")，内容预览: "
        ++ previewOf (pyStrip body) ++ "。错误: ", "",
        by simp [nonJsonMsg, String.append_assoc]⟩
  · rintro (h | ⟨e, h⟩) v
    · simp [_parse_json, h]
    · by_cases hne : pyStrip body = ""
      · simp [_parse_json, hne]
      · simp [_parse_json, hne, h]

/-- Witness for C8 at a decoder that rejects everything, an empty body and a
non-JSON body. -/
theorem spec_C8_witness :
    _parse_json (fun _ => (.error "Expecting value" : Except String Unit)) 502
      "http://127.0.0.1:4096" "  "
      = .error (.other (emptyBodyMsg 502 "http://127.0.0.1:4096"))
    ∧ _parse_json (fun _ => (.error "Expecting value" : Except String Unit)) 502
      "http://127.0.0.1:4096" "<html>"
      = .error (.other (nonJsonMsg 502 (previewOf (pyStrip "<html>")) "Expecting value")) :=
  ⟨(spec_C8 (fun _ => .error "Expecting value") 502 "http://127.0.0.1:4096" "  ").1
      (by decide) |>.1,
   (spec_C8 (fun _ => .error "Expecting value") 502 "http://127.0.0.1:4096" "<html>").2.1
      "Expecting value" (by decide) rfl |>.1⟩

/-- Unfolding lemma for one step of the poll loop. -/
theorem pollForResult_cons (n : Nat) (ms : List Message) (rest : List (List Message)) :
    pollForResult n (ms :: rest)
      = if n < ms.length then
          (if extract_final_result (ms.getLastD ⟨[]⟩) = "" then pollForResult n rest
           else .ok (extract_final_result (ms.getLastD ⟨[]⟩)))
        else pollForResult n rest := rfl

/-- When every poll observation either shows no count increase or extracts an
empty result, the poll loop exhausts the deadline with a timeout. -/
theorem pollForResult_timeout (n : Nat) :
    ∀ polls : List (List Message),
      (∀ ms ∈ polls, ms.length ≤ n ∨ extract_final_result (ms.getLastD ⟨[]⟩) = "") →
      pollForResult n polls = .error (.timeout "轮询等待结果超时") := by
  intro polls
  induction polls with
  | nil => intro _; rfl
  | cons ms rest ih =>
    intro h
    have hrest := ih (fun x hx => h x (List.mem_cons_of_mem _ hx))
    rw [pollForResult_cons]
    by_cases hlt : n < ms.length
    · rcases h ms (List.mem_cons_self _ _) with h1 | h1
      · omega
      · rw [if_pos hlt, if_pos h1]
        exact hrest
    · rw [if_neg hlt]
      exact hrest

/-- A successful poll result is non-empty and is the extraction of some
observation whose count exceeds the recorded count. -/
theorem pollForResult_ok (n : Nat) :
    ∀ (polls : List (List Message)) (r : String), pollForResult n polls = .ok r →
      r ≠ "" ∧ ∃ ms ∈ polls, n < ms.length ∧ extract_final_result (ms.getLastD ⟨[]⟩) = r := by
  intro polls
  induction polls with
  | nil => intro r h; exact absurd h (by simp [pollForResult])
  | cons ms rest ih =>
    intro r h
    rw [pollForResult_cons] at h
    by_cases hlt : n < ms.length
    · rw [if_pos hlt] at h
      by_cases he : extract_final_result (ms.getLastD ⟨[]⟩) = ""
      · rw [if_pos he] at h
        obtain ⟨hr, ms2, hmem, h1, h2⟩ := ih r h
        exact ⟨hr, ms2, List.mem_cons_of_mem _ hmem, h1, h2⟩
      · rw [if_neg he] at h
        have hres : extract_final_result (ms.getLastD ⟨[]⟩) = r := by
          injection h
        exact ⟨hres ▸ he, ms, List.mem_cons_self _ _, hlt, hres⟩
    · rw [if_neg hlt] at h
      obtain ⟨hr, ms2, hmem, h1, h2⟩ := ih r h
      exact ⟨hr, ms2, List.mem_cons_of_mem _ hmem, h1, h2⟩

/-- When some observation shows a count increase with a non-empty extraction,
the poll loop returns a result. -/
theorem pollForResult_progress (n : Nat) :
    ∀ polls : List (List Message),
      (∃ ms ∈ polls, n < ms.length ∧ extract_final_result (ms.getLastD ⟨[]⟩) ≠ "") →
      ∃ r, pollForResult n polls = .ok r := by
  intro polls
  induction polls with
  | nil => rintro ⟨ms, hmem, -⟩; simp at hmem
  | cons ms rest ih =>
    rintro ⟨ms2, hmem, hlen, hne⟩
    rw [pollForResult_cons]
    by_cases hlt : n < ms.length
    · rw [if_pos hlt]
      by_cases he : extract_final_result (ms.getLastD ⟨[]⟩) = ""
      · rw [if_pos he]
        apply ih
        rcases List.mem_cons.mp hmem with rfl | hmem2
        · exact absurd he hne
        · exact ⟨ms2, hmem2, hlen, hne⟩
      · rw [if_neg he]
        exact ⟨_, rfl⟩
    · rw [if_neg hlt]
      apply ih
      rcases List.mem_cons.mp hmem with rfl | hmem2
      · exact absurd hlen hlt
      · exact ⟨ms2, hmem2, hlen, hne⟩

/-- C1: after a successful submit, `send_message_async_poll` returns exactly
when some admitted poll observes a message count above the recorded one with
a non-empty extracted text — the returned value being that non-empty
extraction of the newest message, textless appended messages being skipped —
and when no poll does so before the deadline the call fails with the timeout
exception, never an empty success. -/
theorem spec_C1 (env : AsyncEnv) (hs : env.submit = .ok ()) :
    ((∀ ms ∈ env.polls, ms.length ≤ env.initial.length
        ∨ extract_final_result (ms.getLastD ⟨[]⟩) = "") →
      send_message_async_poll env = .error (.timeout "轮询等待结果超时"))
    ∧ (∀ r, send_message_async_poll env = .ok r →
        r ≠ "" ∧ ∃ ms ∈ env.polls, env.initial.length < ms.length
          ∧ extract_final_result (ms.getLastD ⟨[]⟩) = r)
    ∧ ((∃ ms ∈ env.polls, env.initial.length < ms.length
        ∧ extract_final_result (ms.getLastD ⟨[]⟩) ≠ "") →
      ∃ r, send_message_async_poll env = .ok r) := by
  have hsend : send_message_async_poll env = pollForResult env.initial.length env.polls := by
    simp [send_message_async_poll, hs]
  refine ⟨?_, ?_, ?_⟩
  · intro h
    rw [hsend]
    exact pollForResult_timeout _ _ h
  · intro r h
    rw [hsend] at h
    exact pollForResult_ok _ _ r h
  · intro h
    rw [hsend]
    exact pollForResult_progress _ _ h

/-- Witness for C1 at an environment whose message count never changes
across the whole deadline: the delivery fails with the timeout exception. -/
theorem spec_C1_witness :
    send_message_async_poll staleAsyncEnv = .error (.timeout "轮询等待结果超时") :=
  (spec_C1 staleAsyncEnv rfl).1 (by decide)

/-- C2: `handle_message` never retries a timeout and reports it with the
guidance reply; a 404 delivery failure clears the cached session id and runs
exactly one retry with a freshly obtained session, the caller-visible outcome
being exactly the retry outcome (which depends only on the retry
environment); every other failure is reported once with no retry; a
successful delivery is rendered directly. -/
theorem spec_C2 (env : MsgEnv) :
    (∀ m, env.sess1 = .error (.timeout m) → handle_message env = ⟨timeoutReply, 0, false⟩)
    ∧ (∀ sid m, env.sess1 = .ok sid → env.send1 = .error (.timeout m) →
        handle_message env = ⟨timeoutReply, 1, false⟩)
    ∧ (∀ sid m, env.sess1 = .ok sid → env.send1 = .error (.httpStatus 404 m) →
        handle_message env = ⟨(handleRetry env).reply, 1 + (handleRetry env).sendCalls, true⟩
        ∧ (handleRetry env).sendCalls ≤ 1)
    ∧ (∀ env' : MsgEnv, env.sess2 = env'.sess2 → env.send2 = env'.send2 →
        handleRetry env = handleRetry env')
    ∧ (∀ sid c m, env.sess1 = .ok sid → env.send1 = .error (.httpStatus c m) → c ≠ 404 →
        handle_message env = ⟨failReply (.httpStatus c m), 1, false⟩)
    ∧ (∀ sid m, env.sess1 = .ok sid → env.send1 = .error (.other m) →
        handle_message env = ⟨failReply (.other m), 1, false⟩)
    ∧ (∀ sid r, env.sess1 = .ok sid → env.send1 = .ok r →
        handle_message env = ⟨if r = "" then noTextReply else r, 1, false⟩) := by
  refine ⟨?_, ?_, ?_, ?_, ?_, ?_, ?_⟩
  · intro m h1
    simp [handle_message, h1, handleFirstErr]
  · intro sid m h1 h2
    simp [handle_message, h1, h2, handleFirstErr]
  · intro sid m h1 h2
    constructor
    · simp [handle_message, h1, h2, handleFirstErr]
    · unfold handleRetry
      rcases env.sess2 with e | s
      · simp
      · rcases env.send2 with e | r <;> simp
  · intro env' h2 h3
    unfold handleRetry
    rw [h2, h3]
  · intro sid c m h1 h2 hc
    simp [handle_message, h1, h2, handleFirstErr, hc]
  · intro sid m h1 h2
    simp [handle_message, h1, h2, handleFirstErr]
  · intro sid r h1 h2
    simp [handle_message, h1, h2]

/-- Witness for C2 at a 404-then-success environment: the caller sees exactly
the retry's successful reply, two send attempts in total, and the cleared
cache. -/
theorem spec_C2_witness :
    handle_message retry404Env
      = ⟨(handleRetry retry404Env).reply, 1 + (handleRetry retry404Env).sendCalls, true⟩
    ∧ (handleRetry retry404Env).sendCalls ≤ 1 :=
  (spec_C2 retry404Env).2.2.1 "s1" "Not Found" rfl rfl

/-- A success of the fallback half of `get_or_create_session` sets the
pointer to the returned id, which is either an id the fallback listing
reported or the id of the session just created. -/
theorem sessionFallback_ok (env : SessEnv) (cur : Option String) (i : String)
    (ptr : Option String) (h : sessionFallback env cur = (.ok i, ptr)) :
    ptr = some i
    ∧ ((∃ ss, env.list2 = .ok ss ∧ some i ∈ ss.map SessionObj.sid)
      ∨ (∃ s, env.create = .ok s ∧ s.sid = some i)) := by
  unfold sessionFallback at h
  rcases h2 : env.list2 with e | ss
  · simp [h2] at h
  · simp only [h2] at h
    rcases ss with _ | ⟨s0, rest⟩
    · rcases h3 : env.create with e | s
      · simp [h3] at h
      · simp only [h3] at h
        rcases h4 : s.sid with _ | j
        · simp [h4] at h
        · simp only [h4, Prod.mk.injEq, Except.ok.injEq] at h
          obtain ⟨rfl, rfl⟩ := h
          exact ⟨rfl, Or.inr ⟨s, rfl, h4⟩⟩
    · rcases h4 : s0.sid with _ | j
      · simp [h4] at h
      · simp only [h4, Prod.mk.injEq, Except.ok.injEq] at h
        obtain ⟨rfl, rfl⟩ := h
        refine ⟨rfl, Or.inl ⟨s0 :: rest, rfl, ?_⟩⟩
        rw [List.map_cons, h4]
        exact List.mem_cons_self _ _

/-- C5 (amended): `get_or_create_session` reuses a cached id exactly when the
backend's current listing contains it; when verification fails — the id is
absent from the listing, or listing raised — the pointer is reset to empty
without raising and the get-or-create fallback runs; and every successful
return leaves the pointer naming an id obtained from the backend (the
verified cached id, a listed id, or the freshly created session's id). -/
theorem spec_C5 (cur : Option String) (env : SessEnv) :
    (∀ c ss, cur = some c → c ≠ "" → env.list1 = .ok ss → c ∈ truthyIds ss →
      get_or_create_session cur env = (.ok c, some c))
    ∧ (∀ c ss, cur = some c → c ≠ "" → env.list1 = .ok ss → c ∉ truthyIds ss →
      get_or_create_session cur env = sessionFallback env none)
    ∧ (∀ c e, cur = some c → c ≠ "" → env.list1 = .error e →
      get_or_create_session cur env = sessionFallback env none)
    ∧ (∀ i ptr, get_or_create_session cur env = (.ok i, ptr) →
      ptr = some i
      ∧ ((∃ ss, env.list1 = .ok ss ∧ i ∈ truthyIds ss)
        ∨ (∃ ss, env.list2 = .ok ss ∧ some i ∈ ss.map SessionObj.sid)
        ∨ (∃ s, env.create = .ok s ∧ s.sid = some i))) := by
  refine ⟨?_, ?_, ?_, ?_⟩
  · rintro c ss rfl hc h1 hmem
    simp [get_or_create_session, hc, h1, hmem]
  · rintro c ss rfl hc h1 hmem
    simp [get_or_create_session, hc, h1, hmem]
  · rintro c e rfl hc h1
    simp [get_or_create_session, hc, h1]
  · intro i ptr h
    rcases cur with _ | c
    · have := sessionFallback_ok env none i ptr h
      exact ⟨this.1, Or.inr this.2⟩
    · by_cases hc : c = ""
      · rw [get_or_create_session, if_pos hc] at h
        have := sessionFallback_ok env (some c) i ptr h
        exact ⟨this.1, Or.inr this.2⟩
      · rw [get_or_create_session, if_neg hc] at h
        rcases h1 : env.list1 with e | ss
        · simp only [h1] at h
          have := sessionFallback_ok env none i ptr h
          exact ⟨this.1, Or.inr this.2⟩
        · simp only [h1] at h
          by_cases hmem : c ∈ truthyIds ss
          · rw [if_pos hmem] at h
            simp only [Prod.mk.injEq, Except.ok.injEq] at h
            obtain ⟨rfl, rfl⟩ := h
            exact ⟨rfl, Or.inl ⟨ss, rfl, hmem⟩⟩
          · rw [if_neg hmem] at h
            have := sessionFallback_ok env none i ptr h
            exact ⟨this.1, Or.inr this.2⟩

/-- Counterexample for C5 as stated: `switch_session` is an operation that
sets the current session pointer, yet it performs no verification — applied
to the id `"ghost"` it yields a non-empty pointer even though the backend's
session list (here empty) does not contain that id, so the invariant is not
preserved by every operation that sets the pointer. -/
theorem spec_C5_counterexample :
    switch_session "ghost" = some "ghost" ∧ "ghost" ∉ truthyIds ([] : List SessionObj) :=
  ⟨rfl, by decide⟩

/-- Witness for C5 at a cached id the backend lists: the id is reused and the
pointer keeps it. -/
theorem spec_C5_witness :
    get_or_create_session (some "abc") verifyEnv = (.ok "abc", some "abc") :=
  (spec_C5 (some "abc") verifyEnv).1 "abc" [⟨some "abc", some "t", none⟩]
    rfl (by decide) rfl (by decide)

/-- Unfolded characterization of the key order. -/
theorem keyLe_iff (a b : Nat × String) :
    keyLe a b = true ↔ a.1 < b.1 ∨ (a.1 = b.1 ∧ a.2 ≤ b.2) := by
  simp [keyLe]

/-- The key order is reflexive. -/
theorem keyLe_refl (a : Nat × String) : keyLe a a = true := by
  simp [keyLe]

/-- The key order is total. -/
theorem keyLe_total (a b : Nat × String) : keyLe a b = true ∨ keyLe b a = true := by
  simp only [keyLe_iff]
  rcases Nat.lt_trichotomy a.1 b.1 with h | h | h
  · exact Or.inl (Or.inl h)
  · rcases le_total a.2 b.2 with h2 | h2
    · exact Or.inl (Or.inr ⟨h, h2⟩)
    · exact Or.inr (Or.inr ⟨h.symm, h2⟩)
  · exact Or.inr (Or.inl h)

/-- The key order is transitive. -/
theorem keyLe_trans (a b c : Nat × String) (h1 : keyLe a b = true)
    (h2 : keyLe b c = true) : keyLe a c = true := by
  simp only [keyLe_iff] at h1 h2 ⊢
  rcases h1 with h1 | ⟨h1a, h1b⟩ <;> rcases h2 with h2 | ⟨h2a, h2b⟩
  · exact Or.inl (h1.trans h2)
  · exact Or.inl (by rw [← h2a]; exact h1)
  · exact Or.inl (by rw [h1a]; exact h2)
  · exact Or.inr ⟨h1a.trans h2a, le_trans h1b h2b⟩

/-- Membership through descending insertion. -/
theorem mem_insortDesc (a x : SessionObj) (l : List SessionObj) :
    x ∈ insortDesc a l ↔ x = a ∨ x ∈ l := by
  induction l with
  | nil => simp [insortDesc]
  | cons b bs ih =>
    unfold insortDesc
    split
    · simp only [List.mem_cons]
    · simp only [List.mem_cons, ih]
      tauto

/-- Descending insertion never yields the empty list. -/
theorem insortDesc_ne_nil (a : SessionObj) (l : List SessionObj) :
    insortDesc a l ≠ [] := by
  cases l with
  | nil => simp [insortDesc]
  | cons b bs =>
    unfold insortDesc
    split <;> simp

/-- Membership through the descending sort. -/
theorem mem_sortByKeyDesc (x : SessionObj) (l : List SessionObj) :
    x ∈ sortByKeyDesc l ↔ x ∈ l := by
  induction l with
  | nil => simp [sortByKeyDesc]
  | cons a as ih =>
    simp [sortByKeyDesc, mem_insortDesc, ih, List.mem_cons]

/-- Descending insertion preserves head maximality. -/
theorem insortDesc_head_max (a : SessionObj) (l : List SessionObj)
    (hl : ∀ x ∈ l, keyLe (restartKey x) (restartKey (l.headD dummySession)) = true) :
    ∀ x ∈ insortDesc a l,
      keyLe (restartKey x) (restartKey ((insortDesc a l).headD dummySession)) = true := by
  cases l with
  | nil =>
    intro x hx
    simp only [insortDesc, List.mem_singleton] at hx
    simp [insortDesc, hx, keyLe_refl]
  | cons b bs =>
    by_cases hba : keyLe (restartKey b) (restartKey a) = true
    · simp only [insortDesc, hba, if_true]
      intro x hx
      simp only [List.headD_cons]
      rcases List.mem_cons.mp hx with rfl | hx2
      · exact keyLe_refl _
      · have := hl x hx2
        simp only [List.headD_cons] at this
        exact keyLe_trans _ _ _ this hba
    · have hrw : insortDesc a (b :: bs) = b :: insortDesc a bs := by
        unfold insortDesc
        rw [if_neg hba]
        cases bs <;> rfl
      rw [hrw]
      intro x hx
      simp only [List.headD_cons]
      rcases List.mem_cons.mp hx with rfl | hx2
      · exact keyLe_refl _
      · rcases (mem_insortDesc a x bs).mp hx2 with rfl | hxbs
        · rcases keyLe_total (restartKey x) (restartKey b) with h | h
          · exact h
          · exact absurd h hba
        · have := hl x (List.mem_cons_of_mem _ hxbs)
          simpa using this

/-- The head of the descending sort is maximal for the key order. -/
theorem sortByKeyDesc_head_max (l : List SessionObj) :
    ∀ x ∈ sortByKeyDesc l,
      keyLe (restartKey x) (restartKey ((sortByKeyDesc l).headD dummySession)) = true := by
  induction l with
  | nil => simp [sortByKeyDesc]
  | cons a as ih =>
    have := insortDesc_head_max a (sortByKeyDesc as) ih
    simpa [sortByKeyDesc] using this

/-- C7: after a successful resume-most-recent restart, the selected session
is the head of the stable descending sort of the re-queried list under the
key (has-timestamp, timestamp): it belongs to the list and its key dominates
every entry's key — entries with a timestamp beat those without, ties are
resolved by the timestamp ordering. -/
theorem spec_C7 (ss : List SessionObj) (hne : ss ≠ []) :
    handle_restart_select (.ok ss) = ((sortByKeyDesc ss).headD dummySession).sid
    ∧ (sortByKeyDesc ss).headD dummySession ∈ ss
    ∧ ∀ s ∈ ss, keyLe (restartKey s)
        (restartKey ((sortByKeyDesc ss).headD dummySession)) = true := by
  obtain ⟨a, as, rfl⟩ := List.exists_cons_of_ne_nil hne
  refine ⟨rfl, ?_, ?_⟩
  · have hnn : sortByKeyDesc (a :: as) ≠ [] := by
      simp only [sortByKeyDesc]
      exact insortDesc_ne_nil _ _
    have hmem : (sortByKeyDesc (a :: as)).headD dummySession ∈ sortByKeyDesc (a :: as) := by
      cases hs : sortByKeyDesc (a :: as) with
      | nil => exact absurd hs hnn
      | cons y ys => simp
    exact (mem_sortByKeyDesc _ _).mp hmem
  · intro s hs
    exact sortByKeyDesc_head_max (a :: as) s ((mem_sortByKeyDesc _ _).mpr hs)

/-- Witness for C7 at a two-session list, one entry without timestamp and one
with. -/
theorem spec_C7_witness :
    handle_restart_select (.ok twoSessions)
      = ((sortByKeyDesc twoSessions).headD dummySession).sid
    ∧ (sortByKeyDesc twoSessions).headD dummySession ∈ twoSessions
    ∧ ∀ s ∈ twoSessions, keyLe (restartKey s)
        (restartKey ((sortByKeyDesc twoSessions).headD dummySession)) = true :=
  spec_C7 twoSessions (by decide)

/-- The kill helper never creates directories or spawns processes. -/
theorem kill_port_no_spawn (env : SupEnv) :
    (_kill_port_process env).2.spawns = 0 ∧ (_kill_port_process env).2.mkdirCalls = 0 := by
  by_cases h0 : (env.port 0).inUse = false
  · simp [_kill_port_process, h0, noEffects]
  · rcases hp : (env.port 0).pid with _ | p
    · simp [_kill_port_process, h0, hp, noEffects]
    · rcases p with _ | q
      · simp [_kill_port_process, h0, hp, noEffects]
      · rcases hk : env.kill (q + 1) 15 with _ | _ | m
        · by_cases ha : ∃ k, k < 10 ∧ (env.port (k + 1)).inUse = false
          · simp [_kill_port_process, h0, hp, hk, ha]
          · rcases hk9 : env.kill (q + 1) 9 with _ | _ | m <;>
              simp [_kill_port_process, h0, hp, hk, ha, hk9]
        · simp [_kill_port_process, h0, hp, hk]
        · simp [_kill_port_process, h0, hp, hk]

/-- C3: `ensure_opencode_running` is a no-op success while healthy (so a
second call while healthy also spawns nothing), fails without signalling
anything when the port is occupied but the backend stays unhealthy, and on
an unoccupied port creates the working directory, spawns once, and succeeds
exactly when one of the ten 1-second health polls observes health — failure
on budget exhaustion sends no signal to the spawned process. -/
theorem spec_C3 (env : SupEnv) (portArg : Option Int) (url wd : String) :
    (env.health 0 = true →
      ensure_opencode_running env portArg url wd = ⟨true, "OpenCode 已在运行", noEffects⟩)
    ∧ (env.health 0 = false → (env.port 0).inUse = true → env.health 1 = false →
      (ensure_opencode_running env portArg url wd).ok = false
      ∧ (ensure_opencode_running env portArg url wd).eff = noEffects)
    ∧ (∀ pid, env.health 0 = false → (env.port 0).inUse = false → env.mkdirErr = none →
      env.spawn = .ok pid →
      (ensure_opencode_running env portArg url wd).eff = ⟨1, 1, [], []⟩
      ∧ ((ensure_opencode_running env portArg url wd).ok = true
          ↔ ∃ k, k < 10 ∧ env.health (1 + k) = true))
    ∧ (∀ env2 : SupEnv, env.health 0 = true → env2.health 0 = true →
      (ensure_opencode_running env portArg url wd).eff.spawns
        + (ensure_opencode_running env2 portArg url wd).eff.spawns = 0) := by
  have hany : ∀ e : SupEnv, ((List.range 10).any (fun k => e.health (1 + k)) = true)
      ↔ ∃ k, k < 10 ∧ e.health (1 + k) = true := by
    intro e
    simp [List.any_eq_true, List.mem_range]
  refine ⟨?_, ?_, ?_, ?_⟩
  · intro h0
    simp [ensure_opencode_running, h0]
  · intro h0 hin h1
    constructor <;> simp [ensure_opencode_running, h0, hin, h1]
  · intro pid h0 hin hmk hsp
    have hstart : start_opencode env portArg url none wd
        = ⟨true, "已启动 opencode serve (pid=" ++ toString pid ++ ", " ++ pyOrStr none "127.0.0.1"
            ++ ":" ++ toString (resolvedPort portArg url) ++ ", cwd=" ++ wd ++ ")",
           ⟨1, 1, [], []⟩⟩ := by
      unfold start_opencode
      rw [hmk, hsp]
    constructor
    · by_cases hp : (List.range 10).any (fun k => env.health (1 + k)) = true
      · simp [ensure_opencode_running, h0, hin, hstart, hp]
      · simp [ensure_opencode_running, h0, hin, hstart, hp]
    · rw [← hany env]
      by_cases hp : (List.range 10).any (fun k => env.health (1 + k)) = true
      · simp [ensure_opencode_running, h0, hin, hstart, hp]
      · simp [ensure_opencode_running, h0, hin, hstart, hp]
  · intro env2 h0 h02
    simp [ensure_opencode_running, h0, h02, noEffects]

/-- Witness for C3 at an already-healthy environment. -/
theorem spec_C3_witness :
    ensure_opencode_running healthyEnv none "http://127.0.0.1:4096" "/tmp/w"
      = ⟨true, "OpenCode 已在运行", noEffects⟩ :=
  (spec_C3 healthyEnv none "http://127.0.0.1:4096" "/tmp/w").1 rfl

/-- C4 (amended): `restart_opencode` resolves the current owner pid; when one
exists it sends SIGTERM, polls the port up to ten times at half-second
intervals, escalates to SIGKILL exactly when every poll still sees the port
occupied, and — whenever signalling did not itself fail — proceeds to start
regardless of whether termination was confirmed, polling health up to
fifteen times at 1-second intervals; but when sending a signal fails with an
error other than process-not-found, the restart reports failure without
starting. -/
theorem spec_C4 (env : SupEnv) (portArg : Option Int) (url wd : String) :
    ((env.port 0).inUse = false → _kill_port_process env = (true, noEffects))
    ∧ (∀ p, (env.port 0).inUse = true → (env.port 0).pid = some p → p ≠ 0 →
        ((_kill_port_process env).2.sigterms = [p]
        ∧ (env.kill p 15 = .ok →
            ((∃ k, k < 10 ∧ (env.port (k + 1)).inUse = false) →
              (_kill_port_process env).2.sigkills = [])
            ∧ ((∀ k, k < 10 → (env.port (k + 1)).inUse = true) →
              (_kill_port_process env).2.sigkills = [p]))
        ∧ (∀ m, env.kill p 15 = .failure m →
            restart_opencode env portArg url wd
              = ⟨false, "无法终止端口 " ++ toString (resolvedPort portArg url) ++ " 上的进程",
                 ⟨0, 0, [p], []⟩⟩)))
    ∧ (∀ pid, (_kill_port_process env).1 = true → env.mkdirErr = none → env.spawn = .ok pid →
        (restart_opencode env portArg url wd).eff.spawns = 1
        ∧ ((restart_opencode env portArg url wd).ok = true
            ↔ ∃ j, j < 15 ∧ env.health j = true)) := by
  refine ⟨?_, ?_, ?_⟩
  · intro hin
    unfold _kill_port_process
    rw [if_pos hin]
  · intro p hin hpid hp
    obtain ⟨q, rfl⟩ : ∃ q, p = q + 1 := ⟨p - 1, by omega⟩
    refine ⟨?_, ?_, ?_⟩
    · rcases hres : env.kill (q + 1) 15 with _ | _ | m
      · by_cases hany : ∃ k, k < 10 ∧ (env.port (k + 1)).inUse = false
        · simp [_kill_port_process, hin, hpid, hres, hany]
        · rcases hres9 : env.kill (q + 1) 9 with _ | _ | m <;>
            simp [_kill_port_process, hin, hpid, hres, hany, hres9]
      · simp [_kill_port_process, hin, hpid, hres]
      · simp [_kill_port_process, hin, hpid, hres]
    · intro hok
      constructor
      · intro hex
        simp [_kill_port_process, hin, hpid, hok, hex]
      · intro hall
        have hnone : ¬ ∃ k, k < 10 ∧ (env.port (k + 1)).inUse = false := by
          rintro ⟨k, hk, hfalse⟩
          rw [hall k hk] at hfalse
          cases hfalse
        rcases hres9 : env.kill (q + 1) 9 with _ | _ | m <;>
          simp [_kill_port_process, hin, hpid, hok, hnone, hres9]
    · intro m hres
      have hk : _kill_port_process env = (false, ⟨0, 0, [q + 1], []⟩) := by
        simp [_kill_port_process, hin, hpid, hres]
      unfold restart_opencode
      rw [hk]
      rfl
  · intro pid hkillok hmk hsp
    obtain ⟨b, eff, hke⟩ : ∃ b eff, _kill_port_process env = (b, eff) := ⟨_, _, rfl⟩
    have hb : b = true := by
      rw [hke] at hkillok
      exact hkillok
    subst hb
    have heff : eff.spawns = 0 := by
      have h := (kill_port_no_spawn env).1
      rw [hke] at h
      exact h
    have hstart : start_opencode env (some (resolvedPort portArg url)) url none wd
        = ⟨true, "已启动 opencode serve (pid=" ++ toString pid ++ ", " ++ pyOrStr none "127.0.0.1"
            ++ ":" ++ toString (resolvedPort (some (resolvedPort portArg url)) url)
            ++ ", cwd=" ++ wd ++ ")",
           ⟨1, 1, [], []⟩⟩ := by
      unfold start_opencode
      rw [hmk, hsp]
    constructor
    · unfold restart_opencode
      rw [hke, hstart]
      by_cases hp : ∃ j, j < 15 ∧ env.health j = true
      · simp [hp, Effects.comb, heff]
      · simp [hp, Effects.comb, heff]
    · unfold restart_opencode
      rw [hke, hstart]
      by_cases hp : ∃ j, j < 15 ∧ env.health j = true
      · simp [hp]
      · simp [hp]

/-- Counterexample for C4 as stated: with the port owned by pid 7 and
`os.kill` raising `PermissionError`, `restart_opencode` reports failure
without ever starting the backend — refuting "in every case it then proceeds
to start the backend". -/
theorem spec_C4_counterexample :
    (restart_opencode permDeniedEnv none "http://127.0.0.1:4096" "/tmp/w").ok = false
    ∧ (restart_opencode permDeniedEnv none "http://127.0.0.1:4096" "/tmp/w").eff.spawns = 0 := by
  decide

/-- Witness for C4 at the escalation environment: SIGTERM then SIGKILL are
sent to pid 7, the restart still spawns once and succeeds on the health
poll. -/
theorem spec_C4_witness :
    (_kill_port_process escalateEnv).2.sigterms = [7]
    ∧ (_kill_port_process escalateEnv).2.sigkills = [7]
    ∧ (restart_opencode escalateEnv none "http://127.0.0.1:4096" "/tmp/w").eff.spawns = 1
    ∧ (restart_opencode escalateEnv none "http://127.0.0.1:4096" "/tmp/w").ok = true :=
  ⟨((spec_C4 escalateEnv none "http://127.0.0.1:4096" "/tmp/w").2.1 7 rfl rfl (by decide)).1,
   (((spec_C4 escalateEnv none "http://127.0.0.1:4096" "/tmp/w").2.1 7 rfl rfl
      (by decide)).2.1 rfl).2 (fun k _ => rfl),
   ((spec_C4 escalateEnv none "http://127.0.0.1:4096" "/tmp/w").2.2 41 (by decide) rfl rfl).1,
   (((spec_C4 escalateEnv none "http://127.0.0.1:4096" "/tmp/w").2.2 41 (by decide) rfl rfl).2).mpr
     ⟨0, by omega, rfl⟩⟩
